import Mathlib

/-!
Verification development for the docbot command-policy engine and search
orchestrator (source: backend/app/security.py and
backend/app/agents/smart_search_agent.py).

Strings are modelled as lists of characters (`Str`); Python regular
expressions from the fixed FORBIDDEN_PATTERNS table are compiled by hand
into equivalent executable scanners; `shlex.split` (posix mode) is
modelled as a five-state character automaton; `Path.resolve` is modelled
as purely lexical normalisation (no symlinks, which the sandbox cannot
create through validated read-only commands).
-/

namespace DocBot

abbrev Str := List Char

/-- Characters stripped by Python str.strip() (ASCII whitespace). -/
def py_space (c : Char) : Bool :=
  c == ' ' || c == '\t' || c == '\n' || c == '\r' || c == '\x0B' || c == '\x0C'

/-- Python str.strip(): drop whitespace from both ends. -/
def pyStrip (s : Str) : Str :=
  ((s.dropWhile py_space).reverse.dropWhile py_space).reverse

/-- True when the first character of s is c (Python startswith for one char). -/
def starts_with_char (c : Char) (s : Str) : Bool :=
  match s with
  | [] => false
  | d :: _ => d == c

/-- Contiguous-substring test: Python operator in for strings. -/
def contains_sub (n : Str) : Str → Bool
  | [] => n.isEmpty
  | c :: t => List.isPrefixOf n (c :: t) || contains_sub n t

/-- Python str.split(sep) for a one-character separator, keeping empty parts. -/
def split_on_char (ch : Char) : Str → List Str
  | [] => [[]]
  | c :: t =>
    match split_on_char ch t with
    | [] => [[]]
    | h :: r => if c == ch then [] :: h :: r else (c :: h) :: r

/-- Joining a list of strings with a separator, Python sep.join(l). -/
def join_with (sep : Str) : List Str → Str
  | [] => []
  | [x] => x
  | x :: y :: t => x ++ sep ++ join_with sep (y :: t)

/-- Word character for the regex escape backslash-w over ASCII input. -/
def is_word_char (c : Char) : Bool := c.isAlphanum || c == '_'

/-- Case-insensitive literal prefix match (re.IGNORECASE). -/
def ci_prefix : Str → Str → Bool
  | [], _ => true
  | _ :: _, [] => false
  | p :: ps, c :: cs => (p.toLower == c.toLower) && ci_prefix ps cs

/-- Match the literal word pat at the head of s with a word boundary after it. -/
def word_at (pat s : Str) : Bool :=
  ci_prefix pat s &&
    (match s.drop pat.length with
     | [] => true
     | c :: _ => !(is_word_char c))

/-- Scan s for a whole-word occurrence of pat; prev is the preceding character. -/
def word_search (pat : Str) : Option Char → Str → Bool
  | _, [] => false
  | prev, c :: t =>
    ((match prev with
      | none => true
      | some p => !(is_word_char p)) && word_at pat (c :: t))
    || word_search pat (some c) t

/-- Whole-word, case-insensitive search: the regex word-boundary patterns. -/
def has_word (pat s : Str) : Bool := word_search pat none s

/-- The regex gt-backslash-s-star-not-pipe: a gt sign whose next character
exists and is not a pipe (whitespace itself already satisfies the negated
class, so the star collapses to a one-character lookahead). -/
def has_gt_redirect : Str → Bool
  | [] => false
  | c :: t =>
    (c == '>' && (match t with | d :: _ => !(d == '|') | [] => false))
    || has_gt_redirect t

/-- The regex lt-backslash-s-star-not-lt, collapsed the same way. -/
def has_lt_redirect : Str → Bool
  | [] => false
  | c :: t =>
    (c == '<' && (match t with | d :: _ => !(d == '<') | [] => false))
    || has_lt_redirect t

/-- After an opening backtick: scan for a closing backtick with at least one
non-backtick character in between. -/
def backtick_close : Str → Bool → Bool
  | [], _ => false
  | c :: t, seen => if c == '\x60' then seen else backtick_close t true

/-- The regex backtick nonempty-body backtick pattern. -/
def has_backtick_pair : Str → Bool
  | [] => false
  | c :: t => (c == '\x60' && backtick_close t false) || has_backtick_pair t

/-- Words of CommandValidator.FORBIDDEN_PATTERNS carrying word boundaries. -/
def forbidden_words : List Str :=
  [("rm"), ("mv"), ("cp"), ("touch"), ("mkdir"), ("rmdir"),
   ("chmod"), ("chown"), ("chgrp"),
   ("dd"), ("mkfs"), ("fdisk"), ("mount"), ("umount"),
   ("kill"), ("pkill"), ("killall"),
   ("wget"), ("curl"), ("scp"), ("rsync"),
   ("apt"), ("apt-get"), ("yum"), ("dnf"), ("pip"), ("npm"),
   ("vi"), ("vim"), ("nano"), ("emacs"), ("ed")].map String.data

/-- CommandValidator.FORBIDDEN_PATTERNS: true when any of the fixed forbidden
regular expressions matches the command (re.search with re.IGNORECASE). -/
def matches_forbidden (s : Str) : Bool :=
  forbidden_words.any (fun w => has_word w s)
  || has_gt_redirect s
  || contains_sub ((">>").data) s
  || has_lt_redirect s
  || s.contains ';'
  || contains_sub (("&&").data) s
  || contains_sub (("$(").data) s
  || contains_sub (("$\x7b").data) s
  || has_backtick_pair s

/-- States of the posix shlex automaton. -/
inductive ShState
  | normal
  | escaped
  | single
  | double
  | doubleEsc
deriving DecidableEq

/-- Result of shlex.split: token list, or the ValueError message. -/
inductive ShlexRes
  | ok (toks : List Str)
  | err (msg : Str)
deriving DecidableEq

/-- Characters shlex treats as token separators (shlex.whitespace). -/
def shlex_space (c : Char) : Bool :=
  c == ' ' || c == '\t' || c == '\r' || c == '\n'

/-- Emit the pending token: posix shlex emits when the token is nonempty or a
quote was seen. -/
def shlex_flush (cur : Str) (quoted : Bool) (acc : List Str) : List Str :=
  if !cur.isEmpty || quoted then acc ++ [cur] else acc

/-- The shlex.split posix character automaton. -/
def shlex_aux : Str → ShState → Str → Bool → List Str → ShlexRes
  | [], ShState.normal, cur, quoted, acc => ShlexRes.ok (shlex_flush cur quoted acc)
  | [], ShState.escaped, _, _, _ => ShlexRes.err (("No escaped character").data)
  | [], ShState.single, _, _, _ => ShlexRes.err (("No closing quotation").data)
  | [], ShState.double, _, _, _ => ShlexRes.err (("No closing quotation").data)
  | [], ShState.doubleEsc, _, _, _ => ShlexRes.err (("No escaped character").data)
  | c :: t, ShState.normal, cur, quoted, acc =>
    if shlex_space c then shlex_aux t ShState.normal [] false (shlex_flush cur quoted acc)
    else if c == '\x27' then shlex_aux t ShState.single cur true acc
    else if c == '"' then shlex_aux t ShState.double cur true acc
    else if c == '\\' then shlex_aux t ShState.escaped cur quoted acc
    else shlex_aux t ShState.normal (cur ++ [c]) quoted acc
  | c :: t, ShState.escaped, cur, quoted, acc =>
    shlex_aux t ShState.normal (cur ++ [c]) quoted acc
  | c :: t, ShState.single, cur, quoted, acc =>
    if c == '\x27' then shlex_aux t ShState.normal cur quoted acc
    else shlex_aux t ShState.single (cur ++ [c]) quoted acc
  | c :: t, ShState.double, cur, quoted, acc =>
    if c == '"' then shlex_aux t ShState.normal cur quoted acc
    else if c == '\\' then shlex_aux t ShState.doubleEsc cur quoted acc
    else shlex_aux t ShState.double (cur ++ [c]) quoted acc
  | c :: t, ShState.doubleEsc, cur, quoted, acc =>
    shlex_aux t ShState.double (cur ++ (if c == '"' || c == '\\' then [c] else ['\\', c])) quoted acc

/-- shlex.split(s) in posix mode, as used by validate_command. -/
def shlex_split (s : Str) : ShlexRes := shlex_aux s ShState.normal [] false []

/-- CommandValidator.ALLOWED_COMMANDS, the read-only allowlist. -/
def ALLOWED_COMMANDS : List Str :=
  [("ls"), ("cat"), ("head"), ("tail"), ("grep"), ("rg"), ("find"),
   ("wc"), ("sort"), ("uniq"), ("awk"), ("cut"), ("tr"),
   ("file"), ("stat"), ("du"), ("tree"), ("pwd"), ("less"), ("more")].map String.data

/-- CommandValidator.WORKSPACE_DIR. -/
def WORKSPACE_DIR : Str := ("/workspace/document").data

/-- CommandValidator.MAX_COMMAND_LENGTH. -/
def MAX_COMMAND_LENGTH : Nat := 500

/-- Lexical model of Path(p).resolve() segment processing: drop empty and
dot segments, let dot-dot pop the previous segment. -/
def norm_segments (segs : List Str) : List Str :=
  segs.foldl
    (fun acc seg =>
      if seg.isEmpty || seg == [('.')] then acc
      else if seg == [('.'), ('.')] then acc.dropLast
      else acc ++ [seg]) []

/-- Lexical model of str(Path(p).resolve()) for an absolute path p. -/
def resolve_abs (p : Str) : Str :=
  let segs := norm_segments (split_on_char '/' p)
  if segs.isEmpty then [('/')] else segs.foldl (fun acc s => acc ++ '/' :: s) []

/-- The absolute resolved form of a path argument: absolute paths are taken
as-is, relative ones are joined under the workspace (os.path.join), then
resolved. -/
def resolve_arg (path : Str) : Str :=
  resolve_abs (if starts_with_char '/' path then path else WORKSPACE_DIR ++ '/' :: path)

/-- CommandValidator._validate_path: flags skip validation; dot-dot anywhere
is rejected; otherwise the path (joined under the workspace when relative)
is resolved and must have WORKSPACE_DIR as a string prefix. -/
def validate_path (path : Str) : Bool :=
  if starts_with_char '-' path then true
  else if contains_sub (("..").data) path then false
  else List.isPrefixOf WORKSPACE_DIR (resolve_arg path)

/-- CommandValidator._validate_find_command: deny -exec and friends. -/
def validate_find_command (parts : List Str) : Bool :=
  let forbidden_find_flags : List Str :=
    [("-exec"), ("-execdir"), ("-ok"), ("-okdir"), ("-delete")].map String.data
  !(parts.any (fun p => forbidden_find_flags.contains p))

/-- CommandValidator._validate_awk_command: deny system( and getline lt. -/
def validate_awk_command (parts : List Str) : Bool :=
  let script := join_with ([' ']) parts.tail
  !(contains_sub (("system(").data) script || contains_sub (("getline <").data) script)

/-- Continuation of validate_command's non-pipe branch after the allowlist
check, parameterised on the first path argument failing validation (if any):
a failing path denies, otherwise the find and awk hardening checks run. -/
def path_verdict_aux (cmd : Str) (args : List Str) : Option Str → Bool × Str
  | some t => (false, ("Invalid or forbidden path: ").data ++ t)
  | none =>
    if cmd == ("find").data && !(validate_find_command (cmd :: args)) then
      (false, ("Find command contains forbidden operations").data)
    else if cmd == ("awk").data && !(validate_awk_command (cmd :: args)) then
      (false, ("Awk command contains forbidden operations").data)
    else (true, ("Command validated").data)

/-- The non-pipe tail of validate_command, from the shlex result on: parse
errors and empty token lists deny; a non-allowlisted leading token denies
with a reason naming it; otherwise path validation and command-specific
hardening decide. -/
def validate_simple : ShlexRes → Bool × Str
  | ShlexRes.err e => (false, ("Command parsing error: ").data ++ e)
  | ShlexRes.ok [] => (false, ("Empty command after parsing").data)
  | ShlexRes.ok (cmd :: args) =>
    if ALLOWED_COMMANDS.contains cmd then
      path_verdict_aux cmd args (args.find? (fun t => !(validate_path t)))
    else
      (false, ("Command \x27").data ++ cmd ++ ("\x27 is not allowed. Use only read operations.").data)

/-- The leading token of a tokenization result, when there is one. -/
def lead_of : ShlexRes → List Str
  | ShlexRes.ok (t :: _) => [t]
  | _ => []

/-- The non-leading tokens of a tokenization result. -/
def args_of : ShlexRes → List Str
  | ShlexRes.ok (_ :: args) => args
  | _ => []

/-- Path-argument outcome for one pipe segment: the first failing path (if
any) denies, otherwise the verdict of the remaining segments stands. -/
def pipe_path_aux (restv : Bool × Str) : Option Str → Bool × Str
  | some t => (false, ("Invalid path in pipe: ").data ++ t)
  | none => restv

/-- Verdict for one pipe segment given its tokenization and the verdict of
the remaining segments. -/
def pipe_seg_aux (restv : Bool × Str) : ShlexRes → Bool × Str
  | ShlexRes.err e => (false, ("Command parsing error: ").data ++ e)
  | ShlexRes.ok [] => restv
  | ShlexRes.ok (c :: args) =>
    if ALLOWED_COMMANDS.contains c then
      pipe_path_aux restv (args.find? (fun t => !(validate_path t)))
    else (false, ("Command \x27").data ++ c ++ ("\x27 in pipe is not allowed").data)

/-- The pipe branch of validate_command: each part is stripped, empty parts
are skipped, and every remaining part needs an allowlisted leading token and
valid path arguments; the first failing segment's reason is returned. -/
def validate_pipe : List Str → Bool × Str
  | [] => (true, ("Command validated").data)
  | part :: rest =>
    let p := pyStrip part
    if p.isEmpty then validate_pipe rest
    else pipe_seg_aux (validate_pipe rest) (shlex_split p)

/-- CommandValidator.validate_command. -/
def validate_command (command : Str) : Bool × Str :=
  if command.isEmpty then (false, ("Empty command").data)
  else
    let c := pyStrip command
    if c.length > MAX_COMMAND_LENGTH then
      (false, ("Command too long (max 500 chars)").data)
    else if matches_forbidden c then (false, ("Forbidden operation detected").data)
    else if c.contains '|' then validate_pipe (split_on_char '|' c)
    else validate_simple (shlex_split c)

/-- The leading tokens of the pipe segments, for segments that strip to
something nonempty and tokenize to a nonempty token list — exactly the
segments on which validate_command's pipe branch performs its allowlist
check. -/
def pipe_lead_toks : List Str → List Str
  | [] => []
  | part :: rest => lead_of (shlex_split (pyStrip part)) ++ pipe_lead_toks rest

/-- All non-leading tokens of the pipe segments: the tokens validate_command
treats as path arguments inside a pipe. -/
def pipe_arg_toks : List Str → List Str
  | [] => []
  | part :: rest => args_of (shlex_split (pyStrip part)) ++ pipe_arg_toks rest

/-- The leading token(s) validate_command subjects to the allowlist check:
per pipe segment for piped commands, the single leading token otherwise. -/
def lead_tokens (command : Str) : List Str :=
  let c := pyStrip command
  if c.contains '|' then pipe_lead_toks (split_on_char '|' c)
  else lead_of (shlex_split c)

/-- The tokens validate_command subjects to path validation. -/
def arg_tokens (command : Str) : List Str :=
  let c := pyStrip command
  if c.contains '|' then pipe_arg_toks (split_on_char '|' c)
  else args_of (shlex_split c)

/-- Modelled from the spec: a resolved path references the workspace-root
subtree when it is the workspace root itself or lies strictly below it
("no ValidationVerdict with allowed=true may reference a path outside the
workspace root"). This is the spec's notion, to be compared with the
source's string-prefix check. -/
def in_workspace_subtree (p : Str) : Bool :=
  p == WORKSPACE_DIR || List.isPrefixOf (WORKSPACE_DIR ++ [('/')]) p

/-! ## SmartSearchAgent: executor output handling, caches, search orchestration
(source: backend/app/agents/smart_search_agent.py). Subprocess outputs and
model completions are supplied by oracle parameters; wall-clock readings are
supplied as explicit Nat parameters. The iteration order of the Python set
file_matches is modelled as first-occurrence order. -/

/-- SmartSearchAgent.max_cache_content_size, reused as the output cap. -/
def max_cache_content_size : Nat := 10000

/-- SmartSearchAgent.max_cache_size. -/
def max_cache_size : Nat := 50

/-- SmartSearchAgent.search_cache_ttl. -/
def search_cache_ttl : Nat := 300

/-- The truncation marker appended by _run_shell_command. -/
def truncation_marker : Str := ("\n... (output truncated)").data

/-- Output capping of _run_shell_command lines 87-89: outputs longer than the
cap are cut to the cap and the marker is appended. -/
def cap_output (raw : Str) : Str :=
  if raw.length > max_cache_content_size then
    raw.take max_cache_content_size ++ truncation_marker
  else raw

/-- The string _run_shell_command returns for a completed subprocess, given
its exit code and captured streams (timeout and spawn-failure branches are
not modelled; validation happens before this point). -/
def run_shell_result (returncode : Int) (stdoutS stderrS : Str) : Str :=
  let output := cap_output stdoutS
  if returncode != 0 then ("❌ Command failed:\n").data ++ stderrS
  else if output.isEmpty then ("✓ Command executed successfully (no output)").data
  else output

/-- Event types yielded by the agent to the HTTP boundary. -/
inductive EvKind
  | message
  | command
  | result
deriving DecidableEq

/-- One streamed event. -/
structure Event where
  kind : EvKind
  content : Str
deriving DecidableEq

/-- The insertion-ordered content cache (OrderedDict), oldest entry first. -/
abbrev ContentCache := List (Str × Str)

/-- Association lookup by key. -/
def cache_find (cache : ContentCache) (k : Str) : Option (Str × Str) :=
  cache.find? (fun e => e.1 == k)

/-- OrderedDict assignment: update in place when the key exists, else append. -/
def assoc_set (cache : ContentCache) (k v : Str) : ContentCache :=
  match cache with
  | [] => [(k, v)]
  | e :: t => if e.1 == k then (k, v) :: t else e :: assoc_set t k v

/-- SmartSearchAgent._add_to_cache: cap the entry content, evict the oldest
entry when at capacity, then insert. -/
def add_to_cache (cache : ContentCache) (path content : Str) : ContentCache :=
  let content' :=
    if content.length > max_cache_content_size then content.take max_cache_content_size
    else content
  let cache' := if cache.length ≥ max_cache_size then cache.drop 1 else cache
  assoc_set cache' path content'

/-- The per-file content-cache effect of _deep_content_analysis lines 682-691:
already-cached paths are skipped, and a successful read is written DIRECTLY
into context_cache, bypassing _add_to_cache. -/
def deep_analysis_insert (cache : ContentCache) (path content : Str) : ContentCache :=
  if (cache_find cache path).isSome then cache
  else if !content.isEmpty && !(contains_sub (("Error").data) content) then
    assoc_set cache path content
  else cache

/-- The performance_metrics counters. -/
structure Metrics where
  llm_calls : Nat
  shell_commands : Nat
  cache_hits : Nat
  cache_misses : Nat
deriving DecidableEq

/-- The search-result cache: key, timestamp, cached event list. -/
abbrev SearchCache := List (Str × Nat × List Event)

/-- Association lookup in the search cache. -/
def sc_find (m : SearchCache) (k : Str) : Option (Nat × List Event) :=
  (m.find? (fun e => e.1 == k)).map (fun e => e.2)

/-- Dict assignment in the search cache. -/
def sc_set (m : SearchCache) (k : Str) (v : Nat × List Event) : SearchCache :=
  match m with
  | [] => [(k, v)]
  | e :: t => if e.1 == k then (k, v) :: t else e :: sc_set t k v

/-- The session state owned by one SmartSearchAgent. -/
structure SAgent where
  search_cache : SearchCache
  context_cache : ContentCache
  metrics : Metrics
  commands_run : List Str
deriving DecidableEq

/-- A fresh agent as built by SmartSearchAgent.__init__. -/
def init_agent : SAgent :=
  { search_cache := [], context_cache := [],
    metrics := { llm_calls := 0, shell_commands := 0, cache_hits := 0, cache_misses := 0 },
    commands_run := [] }

/-- Record one executor invocation: the shell_commands counter bump performed
before each _run_shell_command call, plus the command itself (each such call
also consults the policy engine exactly once). -/
def inc_shell (st : SAgent) (c : Str) : SAgent :=
  { st with
    metrics := { st.metrics with shell_commands := st.metrics.shell_commands + 1 },
    commands_run := st.commands_run ++ [c] }

/-- Bump the cache-hit counter. -/
def bump_hits (st : SAgent) : SAgent :=
  { st with metrics := { st.metrics with cache_hits := st.metrics.cache_hits + 1 } }

/-- Bump the cache-miss counter. -/
def bump_misses (st : SAgent) : SAgent :=
  { st with metrics := { st.metrics with cache_misses := st.metrics.cache_misses + 1 } }

/-- Lexicographic order on character lists, Python string comparison. -/
def str_le (a b : Str) : Bool :=
  match a, b with
  | [], _ => true
  | _ :: _, [] => false
  | c :: cs, d :: ds => c < d || (c == d && str_le cs ds)

/-- Insertion into a sorted list. -/
def sorted_insert (x : Str) (l : List Str) : List Str :=
  match l with
  | [] => [x]
  | y :: t => if str_le x y then x :: y :: t else y :: sorted_insert x t

/-- Python sorted() on a list of strings. -/
def sort_strs (l : List Str) : List Str := l.foldr sorted_insert []

/-- The cache key of _keyword_search_parallel. -/
def keyword_cache_key (keywords : List Str) : Str :=
  ("keyword_search:").data ++ join_with ([(':')]) (sort_strs keywords)

/-- The find command issued first by _keyword_search_parallel. -/
def find_files_cmd : Str :=
  ("find . -type f \\( -name \x27*.md\x27 -o -name \x27*.txt\x27 -o -name \x27*.rst\x27 \\) | grep -v \x27_build\x27 | head -50").data

/-- The grep command issued per keyword by _keyword_search_parallel. -/
def grep_cmd_for (kw : Str) : Str :=
  ("grep -r -i -n \x27").data ++ kw
    ++ ("\x27 . --include=\x27*.md\x27 --include=\x27*.txt\x27 | head -20").data

/-- The cat command issued per file by _read_files_batch. -/
def cat_cmd_for (fp : Str) : Str := ("cat ").data ++ fp

/-- Event-content truncation used when yielding grep output. -/
def ev_trunc (n : Nat) (out : Str) : Str :=
  if out.length > n then out.take n ++ ("...").data else out

/-- File-path harvesting from grep output: first five lines, the part before
the first colon, deduplicated (set membership) in first-occurrence order. -/
def extract_files (acc : List Str) (out : Str) : List Str :=
  ((split_on_char '\n' out).take 5).foldl
    (fun a line =>
      if line.contains ':' then
        let fp := (split_on_char ':' line).headD []
        if a.contains fp then a else a ++ [fp]
      else a) acc

/-- The per-keyword grep loop of _keyword_search_parallel: run each grep,
count it, and when its output is nonempty and error-free yield the command
and (1000-capped) result events and harvest file paths. -/
def keyword_grep_loop (oracle : Str → Str) :
    List Str → SAgent × List Event × List Str → SAgent × List Event × List Str
  | [], s => s
  | kw :: rest, (st, evs, files) =>
    let out := oracle (grep_cmd_for kw)
    let st' := inc_shell st (grep_cmd_for kw)
    if !out.isEmpty && !(contains_sub (("Error").data) out) then
      keyword_grep_loop oracle rest
        (st',
         evs ++ [{ kind := EvKind.command, content := ("$ ").data ++ grep_cmd_for kw },
                 { kind := EvKind.result, content := ev_trunc 1000 out }],
         extract_files files out)
    else keyword_grep_loop oracle rest (st', evs, files)

/-- One file read of _read_files_batch: cat the file, count the invocation,
and store a successful read via _add_to_cache. -/
def read_file_step (oracle : Str → Str) (s : SAgent) (fp : Str) : SAgent :=
  let content := oracle (cat_cmd_for fp)
  let s' := inc_shell s (cat_cmd_for fp)
  if !content.isEmpty && !(contains_sub (("Error").data) content) then
    { s' with context_cache := add_to_cache s'.context_cache fp content }
  else s'

/-- SmartSearchAgent._read_files_batch: cat each not-yet-cached file (at most
ten), counting each invocation, and store successful reads via _add_to_cache. -/
def read_files_batch (oracle : Str → Str) (st : SAgent) (files : List Str) : SAgent :=
  let to_read := (files.filter (fun fp => (cache_find st.context_cache fp).isNone)).take 10
  to_read.foldl (read_file_step oracle) st

/-- The cache-miss path of _keyword_search_parallel: count the miss, run the
find command, run the per-keyword greps (first three keywords), batch-read
the first ten harvested files, then store the yielded events in the search
cache under the sorted-keyword key with the store-time stamp. -/
def keyword_miss_run (oracle : Str → Str) (tStore : Nat) (keywords : List Str)
    (st : SAgent) : List Event × SAgent :=
  let st1 := inc_shell (bump_misses st) find_files_cmd
  let r := keyword_grep_loop oracle (keywords.take 3) (st1, [], [])
  let st4 := read_files_batch oracle r.1 (r.2.2.take 10)
  (r.2.1, { st4 with search_cache := sc_set st4.search_cache (keyword_cache_key keywords) (tStore, r.2.1) })

/-- The cache consultation of _keyword_search_parallel, parameterised on the
looked-up entry: a hit younger than the TTL replays the stored events and
counts a hit; anything else takes the miss path. -/
def keyword_lookup_aux (oracle : Str → Str) (tNow tStore : Nat)
    (keywords : List Str) (st : SAgent) : Option (Nat × List Event) → List Event × SAgent
  | some e =>
    if tNow - e.1 < search_cache_ttl then (e.2, bump_hits st)
    else keyword_miss_run oracle tStore keywords st
  | none => keyword_miss_run oracle tStore keywords st

/-- SmartSearchAgent._keyword_search_parallel: a cached entry younger than the
TTL is replayed verbatim and counted as a hit without touching the executor;
otherwise the miss path executes and repopulates the cache. tNow is the
time.time() reading at the cache check, tStore the one at the store. -/
def keyword_search_parallel (oracle : Str → Str) (tNow tStore : Nat)
    (keywords : List Str) (st : SAgent) : List Event × SAgent :=
  keyword_lookup_aux oracle tNow tStore keywords st
    (sc_find st.search_cache (keyword_cache_key keywords))

/-- The canned no-evidence answer of process_query line 172. -/
def canned_no_info : Str :=
  ("\n⚠️ **No relevant information found in the documentation.**\n\nI couldn\x27t find any information about your query in the available documents. Please ensure your question relates to the documented topics.").data

/-- The final phase of process_query (lines 169-176): after all strategies,
an empty content cache yields the canned answer and returns; otherwise one
final synthesis completion is issued. The Bool records whether the synthesis
model call (_deep_synthesis) was invoked. -/
def process_query_final (llmAnswer : Str) (st : SAgent) : List Event × Bool :=
  let pre : List Event := [{ kind := EvKind.message, content := ("🔬 Preparing answer...").data }]
  if st.context_cache.isEmpty then
    (pre ++ [{ kind := EvKind.message, content := canned_no_info }], false)
  else
    (pre ++ [{ kind := EvKind.message, content := ("\n📋 **Answer:**\n\n").data ++ llmAnswer }], true)

/-- An environment oracle whose every subprocess output is empty, for
concrete instantiations. -/
def oracle0 : Str → Str := fun _ => []

/-- A content cache filled to capacity with fifty distinct entries. -/
def cache_fifty : ContentCache :=
  (List.range 50).map (fun i => (List.replicate i 'k', ([] : Str)))

/-- The executor's returned output for a successful command whose raw stdout
has 10001 characters: truncated at the cap with the marker appended. -/
def big_shell_output : Str := run_shell_result 0 (List.replicate 10001 'a') []

/-! ## Helper lemmas -/

theorem shlex_split_nil : shlex_split [] = ShlexRes.ok [] := rfl

theorem validate_pipe_lead_allowed :
    ∀ parts, (validate_pipe parts).1 = true →
      ∀ t ∈ pipe_lead_toks parts, ALLOWED_COMMANDS.contains t = true := by
  intro parts
  induction parts with
  | nil => intro _ t ht; simp [pipe_lead_toks] at ht
  | cons part rest ih =>
    intro h t ht
    simp only [pipe_lead_toks] at ht
    by_cases hp : (pyStrip part).isEmpty
    · have hpe : pyStrip part = [] := by
        cases hq : pyStrip part
        · rfl
        · rw [hq] at hp; simp at hp
      simp only [validate_pipe, hpe, List.isEmpty_nil, if_true] at h
      rw [hpe] at ht
      simp only [shlex_split_nil, lead_of, List.nil_append] at ht
      exact ih h t ht
    · have hpb : (pyStrip part).isEmpty = false := by
        cases hq : (pyStrip part).isEmpty
        · rfl
        · exact absurd hq hp
      simp only [validate_pipe, hpb, Bool.false_eq_true, if_false] at h
      cases hs : shlex_split (pyStrip part) with
      | err e =>
        rw [hs] at h; simp [pipe_seg_aux] at h
      | ok toks =>
        rw [hs] at h
        rw [hs] at ht
        cases toks with
        | nil =>
          simp only [pipe_seg_aux] at h
          simp only [lead_of, List.nil_append] at ht
          exact ih h t ht
        | cons c args =>
          simp only [pipe_seg_aux] at h
          simp only [lead_of, List.cons_append, List.nil_append] at ht
          by_cases hc : ALLOWED_COMMANDS.contains c
          · rcases List.mem_cons.mp ht with rfl | ht'
            · exact hc
            · rw [if_pos hc] at h
              cases hf : args.find? (fun t => !(validate_path t)) with
              | some u => rw [hf] at h; simp [pipe_path_aux] at h
              | none => rw [hf] at h; simp only [pipe_path_aux] at h; exact ih h t ht'
          · have hcb : ALLOWED_COMMANDS.contains c = false := by
              cases hq : ALLOWED_COMMANDS.contains c
              · rfl
              · exact absurd hq hc
            rw [hcb] at h; simp at h

theorem validate_pipe_args_valid :
    ∀ parts, (validate_pipe parts).1 = true →
      ∀ t ∈ pipe_arg_toks parts, validate_path t = true := by
  intro parts
  induction parts with
  | nil => intro _ t ht; simp [pipe_arg_toks] at ht
  | cons part rest ih =>
    intro h t ht
    simp only [pipe_arg_toks] at ht
    by_cases hp : (pyStrip part).isEmpty
    · have hpe : pyStrip part = [] := by
        cases hq : pyStrip part
        · rfl
        · rw [hq] at hp; simp at hp
      simp only [validate_pipe, hpe, List.isEmpty_nil, if_true] at h
      rw [hpe] at ht
      simp only [shlex_split_nil, args_of, List.nil_append] at ht
      exact ih h t ht
    · have hpb : (pyStrip part).isEmpty = false := by
        cases hq : (pyStrip part).isEmpty
        · rfl
        · exact absurd hq hp
      simp only [validate_pipe, hpb, Bool.false_eq_true, if_false] at h
      cases hs : shlex_split (pyStrip part) with
      | err e =>
        rw [hs] at h; simp [pipe_seg_aux] at h
      | ok toks =>
        rw [hs] at h
        rw [hs] at ht
        cases toks with
        | nil =>
          simp only [pipe_seg_aux] at h
          simp only [args_of, List.nil_append] at ht
          exact ih h t ht
        | cons c args =>
          simp only [pipe_seg_aux] at h
          simp only [args_of] at ht
          by_cases hc : ALLOWED_COMMANDS.contains c
          · rw [if_pos hc] at h
            cases hf : args.find? (fun t => !(validate_path t)) with
            | some u => rw [hf] at h; simp [pipe_path_aux] at h
            | none =>
              rw [hf] at h
              simp only [pipe_path_aux] at h
              rcases List.mem_append.mp ht with ht' | ht'
              · have := List.find?_eq_none.mp hf t ht'
                simpa using this
              · exact ih h t ht'
          · have hcb : ALLOWED_COMMANDS.contains c = false := by
              cases hq : ALLOWED_COMMANDS.contains c
              · rfl
              · exact absurd hq hc
            rw [hcb] at h; simp at h

theorem validate_simple_true_elim (c : Str) (args : List Str)
    (h : (validate_simple (ShlexRes.ok (c :: args))).1 = true) :
    ALLOWED_COMMANDS.contains c = true ∧ ∀ t ∈ args, validate_path t = true := by
  simp only [validate_simple] at h
  by_cases hc : ALLOWED_COMMANDS.contains c
  · refine ⟨hc, ?_⟩
    rw [if_pos hc] at h
    cases hf : args.find? (fun t => !(validate_path t)) with
    | some u => rw [hf] at h; simp [path_verdict_aux] at h
    | none =>
      intro t ht
      have := List.find?_eq_none.mp hf t ht
      simpa using this
  · have hcb : ALLOWED_COMMANDS.contains c = false := by
      cases hq : ALLOWED_COMMANDS.contains c
      · rfl
      · exact absurd hq hc
    rw [hcb] at h; simp at h

theorem validate_true_lead (command : Str) (h : (validate_command command).1 = true) :
    ∀ t ∈ lead_tokens command, ALLOWED_COMMANDS.contains t = true := by
  intro t ht
  by_cases hemp : command.isEmpty
  · simp only [validate_command, hemp, if_true] at h; simp at h
  · have hempb : command.isEmpty = false := by
      cases hq : command.isEmpty
      · rfl
      · exact absurd hq hemp
    simp only [validate_command, hempb, Bool.false_eq_true, if_false] at h
    simp only [lead_tokens] at ht
    by_cases hlen : (pyStrip command).length > MAX_COMMAND_LENGTH
    · rw [if_pos hlen] at h; simp at h
    · rw [if_neg hlen] at h
      by_cases hforb : matches_forbidden (pyStrip command)
      · rw [if_pos hforb] at h; simp at h
      · rw [if_neg hforb] at h
        by_cases hpipe : (pyStrip command).contains '|'
        · rw [if_pos hpipe] at h
          rw [if_pos hpipe] at ht
          exact validate_pipe_lead_allowed _ h t ht
        · rw [if_neg hpipe] at h
          rw [if_neg hpipe] at ht
          cases hs : shlex_split (pyStrip command) with
          | err e => rw [hs] at h; simp [validate_simple] at h
          | ok toks =>
            rw [hs] at h
            rw [hs] at ht
            cases toks with
            | nil => simp [validate_simple] at h
            | cons c args =>
              simp only [lead_of] at ht
              rw [List.mem_singleton.mp ht]
              exact (validate_simple_true_elim c args h).1

theorem validate_true_args (command : Str) (h : (validate_command command).1 = true) :
    ∀ t ∈ arg_tokens command, validate_path t = true := by
  intro t ht
  by_cases hemp : command.isEmpty
  · simp only [validate_command, hemp, if_true] at h; simp at h
  · have hempb : command.isEmpty = false := by
      cases hq : command.isEmpty
      · rfl
      · exact absurd hq hemp
    simp only [validate_command, hempb, Bool.false_eq_true, if_false] at h
    simp only [arg_tokens] at ht
    by_cases hlen : (pyStrip command).length > MAX_COMMAND_LENGTH
    · rw [if_pos hlen] at h; simp at h
    · rw [if_neg hlen] at h
      by_cases hforb : matches_forbidden (pyStrip command)
      · rw [if_pos hforb] at h; simp at h
      · rw [if_neg hforb] at h
        by_cases hpipe : (pyStrip command).contains '|'
        · rw [if_pos hpipe] at h
          rw [if_pos hpipe] at ht
          exact validate_pipe_args_valid _ h t ht
        · rw [if_neg hpipe] at h
          rw [if_neg hpipe] at ht
          cases hs : shlex_split (pyStrip command) with
          | err e => rw [hs] at h; simp [validate_simple] at h
          | ok toks =>
            rw [hs] at h
            rw [hs] at ht
            cases toks with
            | nil => simp [validate_simple] at h
            | cons c args =>
              simp only [args_of] at ht
              exact (validate_simple_true_elim c args h).2 t ht

theorem validate_path_true_elim (t : Str) (h : validate_path t = true)
    (hflag : starts_with_char '-' t = false) :
    contains_sub (("..").data) t = false ∧
      List.isPrefixOf WORKSPACE_DIR (resolve_arg t) = true := by
  simp only [validate_path, hflag, Bool.false_eq_true, if_false] at h
  by_cases hdd : contains_sub (("..").data) t
  · rw [if_pos hdd] at h; simp at h
  · have hddb : contains_sub (("..").data) t = false := by
      cases hq : contains_sub (("..").data) t
      · rfl
      · exact absurd hq hdd
    rw [hddb] at h
    exact ⟨hddb, h⟩

/-! ## Claim theorems for the Command Policy Engine -/

/-- C2: for every command matching any of the fixed forbidden patterns
(chaining and substitution metacharacters, redirection, the forbidden verbs
such as rm and curl), validate_command returns denied — the scan runs on the
whole raw string before pipe splitting, so a forbidden construct inside a
pipe segment is also caught. -/
theorem C2_forbidden_always_denied (command : Str)
    (hf : matches_forbidden (pyStrip command) = true) :
    (validate_command command).1 = false := by
  by_cases hemp : command.isEmpty
  · simp [validate_command, hemp]
  · have hempb : command.isEmpty = false := by
      cases hq : command.isEmpty
      · rfl
      · exact absurd hq hemp
    simp only [validate_command, hempb, Bool.false_eq_true, if_false]
    by_cases hlen : (pyStrip command).length > MAX_COMMAND_LENGTH
    · rw [if_pos hlen]
    · rw [if_neg hlen, if_pos hf]

/-- C2 witness: the forbidden verb rm inside a pipe segment is denied. -/
theorem C2_forbidden_always_denied_witness :
    (validate_command (("ls | rm x").data)).1 = false :=
  C2_forbidden_always_denied (("ls | rm x").data) (by decide)

/-- C9: the command ls || cat file.txt contains the shell logical-OR operator
yet is accepted: no forbidden pattern matches it, the pipe branch splits it
on the single pipe character into a segment, an empty segment (silently
skipped), and a second segment, and both sides carry allowlisted commands. -/
theorem C9_logical_or_accepted :
    validate_command (("ls || cat file.txt").data) = (true, ("Command validated").data) ∧
    matches_forbidden (("ls || cat file.txt").data) = false ∧
    split_on_char '|' (("ls || cat file.txt").data) =
      [("ls ").data, [], (" cat file.txt").data] := by
  refine ⟨by decide, by decide, by decide⟩

/-- C8 counterexample: for the input rm -rf /, the denial reason is the
generic "Forbidden operation detected", which does not contain the verb rm,
so the reason does not name the forbidden verb as claimed. -/
theorem C8_reason_counterexample :
    validate_command (("rm -rf /").data) = (false, ("Forbidden operation detected").data) ∧
    contains_sub (("rm").data) (("Forbidden operation detected").data) = false := by
  refine ⟨by decide, by decide⟩

/-- C8 (amended): for the input rm -rf /, validate_command returns
allowed=false with the generic reason "Forbidden operation detected"
produced by the forbidden-pattern scan. -/
theorem C8_rm_rf_denied :
    validate_command (("rm -rf /").data) = (false, ("Forbidden operation detected").data) := by
  decide

/-- C3 counterexample: mv a b has the non-allowlisted leading token mv, but
because the forbidden-pattern scan fires first, the denial reason is the
generic "Forbidden operation detected", which does not name mv. -/
theorem C3_reason_counterexample :
    ("mv").data ∈ lead_tokens (("mv a b").data) ∧
    ALLOWED_COMMANDS.contains (("mv").data) = false ∧
    validate_command (("mv a b").data) = (false, ("Forbidden operation detected").data) ∧
    contains_sub (("mv").data) (("Forbidden operation detected").data) = false := by
  refine ⟨by decide, by decide, by decide, by decide⟩

/-- C3 (amended): every accepted command has only allowlisted leading tokens
(per pipe segment for piped commands); and when a non-piped command passes
the emptiness, length and forbidden-pattern checks and tokenizes with a
non-allowlisted leading token, the denial reason names that token.
Commands whose leading token also triggers a forbidden pattern are denied
earlier with the generic reason. -/
theorem C3_allowlist_enforced :
    (∀ command : Str, (validate_command command).1 = true →
        ∀ t ∈ lead_tokens command, ALLOWED_COMMANDS.contains t = true) ∧
    (∀ (command tok : Str) (args : List Str),
        ¬ (pyStrip command).length > MAX_COMMAND_LENGTH →
        matches_forbidden (pyStrip command) = false →
        (pyStrip command).contains '|' = false →
        shlex_split (pyStrip command) = ShlexRes.ok (tok :: args) →
        ALLOWED_COMMANDS.contains tok = false →
        validate_command command =
          (false, ("Command \x27").data ++ tok
            ++ ("\x27 is not allowed. Use only read operations.").data)) := by
  constructor
  · exact validate_true_lead
  · intro command tok args hlen hforb hpipe hs htok
    have hemp : command.isEmpty = false := by
      cases command with
      | nil =>
        rw [show pyStrip [] = [] from rfl, shlex_split_nil] at hs
        simp at hs
      | cons c t => rfl
    simp only [validate_command, hemp, Bool.false_eq_true, if_false]
    rw [if_neg hlen, hforb]
    simp only [Bool.false_eq_true, if_false]
    rw [hpipe]
    simp only [Bool.false_eq_true, if_false]
    rw [hs]
    simp only [validate_simple, htok, Bool.false_eq_true, if_false]

/-- C3 witness: ls is accepted with an allowlisted leading token, and foo a
is denied with a reason naming foo. -/
theorem C3_allowlist_enforced_witness :
    ALLOWED_COMMANDS.contains (("ls").data) = true ∧
    validate_command (("foo a").data) =
      (false, ("Command \x27").data ++ ("foo").data
        ++ ("\x27 is not allowed. Use only read operations.").data) :=
  ⟨C3_allowlist_enforced.1 (("ls").data) (by decide) (("ls").data) (by decide),
   C3_allowlist_enforced.2 (("foo a").data) (("foo").data) [("a").data]
     (by decide) (by decide) (by decide) (by decide) (by decide)⟩

/-- C1 counterexample: cat /workspace/documents is accepted with
allowed=true although its path argument resolves to /workspace/documents,
which lies outside the workspace-root subtree — the code checks only that
the resolved string has /workspace/document as a prefix, so sibling paths
pass. -/
theorem C1_prefix_counterexample :
    validate_command (("cat /workspace/documents").data) =
      (true, ("Command validated").data) ∧
    resolve_arg (("/workspace/documents").data) = ("/workspace/documents").data ∧
    in_workspace_subtree (("/workspace/documents").data) = false := by
  refine ⟨by decide, by decide, by decide⟩

/-- C1 (amended): whenever validate_command returns allowed=true, every
non-flag path argument is free of the dot-dot traversal substring and its
resolved form carries the string /workspace/document as a prefix. The
string-prefix check (rather than subtree membership) is exactly what the
code enforces, so sibling directories such as /workspace/documents are not
excluded. -/
theorem C1_path_guarantees (command : Str)
    (h : (validate_command command).1 = true) :
    ∀ t ∈ arg_tokens command, starts_with_char '-' t = false →
      contains_sub (("..").data) t = false ∧
      List.isPrefixOf WORKSPACE_DIR (resolve_arg t) = true := by
  intro t ht hflag
  exact validate_path_true_elim t (validate_true_args command h t ht) hflag

/-- C1 witness: the accepted command cat a.txt has its argument resolved
under the workspace prefix and free of dot-dot. -/
theorem C1_path_guarantees_witness :
    contains_sub (("..").data) (("a.txt").data) = false ∧
    List.isPrefixOf WORKSPACE_DIR (resolve_arg (("a.txt").data)) = true :=
  C1_path_guarantees (("cat a.txt").data) (by decide) (("a.txt").data)
    (by decide) (by decide)

/-- C10: validate_command denies every command having a non-flag argument
containing the two-character substring dot-dot anywhere in the token, even
when it is not a traversal segment. -/
theorem C10_dotdot_always_denied (command : Str)
    (hexists : ∃ t ∈ arg_tokens command, starts_with_char '-' t = false ∧
      contains_sub (("..").data) t = true) :
    (validate_command command).1 = false := by
  rcases hexists with ⟨t, ht, hflag, hdd⟩
  cases hv : (validate_command command).1
  · rfl
  · exfalso
    have hvp := validate_true_args command hv t ht
    have h2 := validate_path_true_elim t hvp hflag
    rw [h2.1] at hdd
    exact absurd hdd (by simp)

/-- C10 witness: cat notes..md is denied although notes..md is a plain file
name, not a traversal. -/
theorem C10_dotdot_always_denied_witness :
    (validate_command (("cat notes..md").data)).1 = false :=
  C10_dotdot_always_denied (("cat notes..md").data)
    ⟨("notes..md").data, by decide, by decide, by decide⟩

/-! ## Lemmas about the executor's output handling -/

theorem truncation_marker_length : truncation_marker.length = 23 := by decide

theorem cap_output_of_le (raw : Str) (h : raw.length ≤ max_cache_content_size) :
    cap_output raw = raw := by
  unfold cap_output
  rw [if_neg (by omega)]

theorem cap_output_of_gt (raw : Str) (h : max_cache_content_size < raw.length) :
    cap_output raw = raw.take max_cache_content_size ++ truncation_marker := by
  unfold cap_output
  rw [if_pos h]

theorem cap_output_isEmpty_false (raw : Str) (h : raw ≠ []) :
    (cap_output raw).isEmpty = false := by
  unfold cap_output
  split
  · cases hq : raw.take max_cache_content_size ++ truncation_marker with
    | nil =>
      have := congrArg List.length hq
      rw [List.length_append, truncation_marker_length] at this
      simp at this
    | cons c t => rfl
  · cases raw with
    | nil => exact absurd rfl h
    | cons c t => rfl

theorem run_shell_ok (raw : Str) (h : raw ≠ []) :
    run_shell_result 0 raw [] = cap_output raw := by
  unfold run_shell_result
  rw [show ((0 : Int) != 0) = false from rfl]
  simp only [Bool.false_eq_true, if_false]
  rw [cap_output_isEmpty_false raw h]
  simp only [Bool.false_eq_true, if_false]

theorem big_shell_output_eq :
    big_shell_output = List.replicate 10000 'a' ++ truncation_marker := by
  have hrep : (List.replicate 10001 'a') ≠ [] := by
    intro hcontra
    have hlen := congrArg List.length hcontra
    rw [List.length_replicate, List.length_nil] at hlen
    omega
  have hgt : max_cache_content_size < (List.replicate 10001 'a').length := by
    rw [List.length_replicate]
    norm_num [max_cache_content_size]
  unfold big_shell_output
  rw [run_shell_ok _ hrep, cap_output_of_gt _ hgt, List.take_replicate]
  norm_num [max_cache_content_size]

theorem big_shell_output_length : big_shell_output.length = 10023 := by
  rw [big_shell_output_eq, List.length_append, List.length_replicate,
    truncation_marker_length]

/-- C4 counterexample: a successful command whose raw stdout has 10001
characters is returned with length 10023, strictly above the configured cap
of 10000 — the code first cuts at the cap and then appends the 23-character
marker, so truncated outputs always exceed the cap. -/
theorem C4_output_cap_counterexample :
    (run_shell_result 0 (List.replicate 10001 'a') []).length = 10023 ∧
    ¬ (run_shell_result 0 (List.replicate 10001 'a') []).length ≤ max_cache_content_size := by
  constructor
  · exact big_shell_output_length
  · show ¬ big_shell_output.length ≤ max_cache_content_size
    rw [big_shell_output_length]
    simp [max_cache_content_size]

/-- C4 (amended): for every accepted command run with exit code zero and
nonempty stdout, the returned output is the capped stdout: its length is at
most the cap plus the 23-character marker length; stdout within the cap is
returned unchanged (no marker), and stdout above the cap is returned as the
first cap-many characters with the marker appended; truncation never turns
the call into a failure. -/
theorem C4_output_cap_amended (command raw : Str)
    (hacc : (validate_command command).1 = true) (hne : raw ≠ []) :
    (run_shell_result 0 raw []).length ≤ max_cache_content_size + truncation_marker.length ∧
    run_shell_result 0 raw [] = cap_output raw ∧
    (raw.length ≤ max_cache_content_size → run_shell_result 0 raw [] = raw) ∧
    (max_cache_content_size < raw.length →
      run_shell_result 0 raw [] = raw.take max_cache_content_size ++ truncation_marker) := by
  have hok := run_shell_ok raw hne
  refine ⟨?_, hok, ?_, ?_⟩
  · rw [hok]
    by_cases hle : raw.length ≤ max_cache_content_size
    · rw [cap_output_of_le raw hle]; omega
    · have hgt : max_cache_content_size < raw.length := by omega
      rw [cap_output_of_gt raw hgt, List.length_append, List.length_take]
      omega
  · intro hle; rw [hok, cap_output_of_le raw hle]
  · intro hgt; rw [hok, cap_output_of_gt raw hgt]

/-- C4 witness: the accepted command ls with a short stdout is returned
unchanged and within the bound. -/
theorem C4_output_cap_amended_witness :
    (run_shell_result 0 (("ab").data) []).length ≤
      max_cache_content_size + truncation_marker.length ∧
    run_shell_result 0 (("ab").data) [] = cap_output (("ab").data) ∧
    ((("ab").data).length ≤ max_cache_content_size →
      run_shell_result 0 (("ab").data) [] = ("ab").data) ∧
    (max_cache_content_size < (("ab").data).length →
      run_shell_result 0 (("ab").data) [] =
        (("ab").data).take max_cache_content_size ++ truncation_marker) :=
  C4_output_cap_amended (("ls").data) (("ab").data) (by decide) (by decide)

/-! ## Lemmas about the caches -/

theorem contains_sub_head_not_mem (c : Char) (n h : Str) (hc : c ∉ h) :
    contains_sub (c :: n) h = false := by
  induction h with
  | nil => rfl
  | cons d t ih =>
    have hcd : (c == d) = false := by
      have hne : c ≠ d := fun he => hc (by rw [he]; exact List.mem_cons_self d t)
      exact beq_eq_false_iff_ne.mpr hne
    have h1 : List.isPrefixOf (c :: n) (d :: t) = false := by
      show (c == d && List.isPrefixOf n t) = false
      rw [hcd, Bool.false_and]
    simp only [contains_sub, h1, Bool.false_or]
    exact ih (fun hm => hc (List.mem_cons_of_mem d hm))

theorem assoc_set_length_of_all (cache : ContentCache) (k v : Str)
    (hf : ∀ e ∈ cache, (e.1 == k) = false) :
    (assoc_set cache k v).length = cache.length + 1 := by
  induction cache with
  | nil => rfl
  | cons e t ih =>
    have hk := hf e (List.mem_cons_self e t)
    simp only [assoc_set, hk, Bool.false_eq_true, if_false, List.length_cons]
    rw [ih (fun x hx => hf x (List.mem_cons_of_mem e hx))]

/-- C5 (code bug): at capacity fifty, the direct cache write performed by
_deep_content_analysis grows the content cache to fifty-one entries and
stores an entry of length 10023, violating both the entry-count bound and
the per-entry size bound — it bypasses _add_to_cache, so neither eviction
nor content capping is applied. -/
theorem C5_deep_analysis_breaks_cache_invariants :
    cache_fifty.length = max_cache_size ∧
    (deep_analysis_insert cache_fifty [('p')] big_shell_output).length
      = max_cache_size + 1 ∧
    big_shell_output.length = 10023 ∧
    max_cache_content_size < big_shell_output.length := by
  have hne : big_shell_output.isEmpty = false := by
    cases hbo : big_shell_output with
    | nil =>
      have := big_shell_output_length
      rw [hbo] at this
      simp at this
    | cons c t => rfl
  have herr : contains_sub (("Error").data) big_shell_output = false := by
    rw [big_shell_output_eq]
    apply contains_sub_head_not_mem
    intro hmem
    rcases List.mem_append.mp hmem with hm | hm
    · exact absurd (List.eq_of_mem_replicate hm) (by decide)
    · exact absurd hm (by decide)
  have hfind : cache_find cache_fifty [('p')] = none := by decide
  refine ⟨by decide, ?_, big_shell_output_length, ?_⟩
  · unfold deep_analysis_insert
    rw [hfind]
    simp only [Option.isSome_none, Bool.false_eq_true, if_false]
    rw [hne, herr]
    simp only [Bool.not_false, Bool.and_self, if_true]
    have hfind' : List.find? (fun e => e.1 == [('p')]) cache_fifty = none := hfind
    have hall : ∀ e ∈ cache_fifty, (e.1 == [('p')]) = false := by
      intro e he
      cases hq : e.1 == [('p')]
      · rfl
      · exact absurd hq (by simpa using List.find?_eq_none.mp hfind' e he)
    rw [assoc_set_length_of_all _ _ _ hall]
    decide
  · rw [big_shell_output_length]
    decide

/-! ## Lemmas about the search-result cache -/

theorem sc_find_set (m : SearchCache) (k : Str) (v : Nat × List Event) :
    sc_find (sc_set m k v) k = some v := by
  induction m with
  | nil =>
    show sc_find [(k, v)] k = some v
    unfold sc_find
    rw [List.find?_cons_of_pos _ (by simp)]
    rfl
  | cons e t ih =>
    by_cases hk : (e.1 == k) = true
    · simp only [sc_set, hk, if_true]
      unfold sc_find
      rw [List.find?_cons_of_pos _ (by simp)]
      rfl
    · have hk' : (e.1 == k) = false := by
        cases hq : e.1 == k
        · rfl
        · exact absurd hq hk
      simp only [sc_set, hk', Bool.false_eq_true, if_false]
      unfold sc_find at ih ⊢
      rw [List.find?_cons_of_neg _ (by simp [hk'])]
      exact ih

theorem read_file_step_search_cache (oracle : Str → Str) (s : SAgent) (fp : Str) :
    (read_file_step oracle s fp).search_cache = s.search_cache := by
  simp only [read_file_step]
  split <;> rfl

theorem foldl_read_search_cache (oracle : Str → Str) :
    ∀ (l : List Str) (s : SAgent),
      (l.foldl (read_file_step oracle) s).search_cache = s.search_cache := by
  intro l
  induction l with
  | nil => intro s; rfl
  | cons x t ih =>
    intro s
    rw [List.foldl_cons, ih, read_file_step_search_cache]

theorem read_files_batch_search_cache (oracle : Str → Str) (st : SAgent)
    (files : List Str) :
    (read_files_batch oracle st files).search_cache = st.search_cache := by
  unfold read_files_batch
  exact foldl_read_search_cache oracle _ st

theorem keyword_grep_loop_search_cache (oracle : Str → Str) :
    ∀ (kws : List Str) (s : SAgent × List Event × List Str),
      (keyword_grep_loop oracle kws s).1.search_cache = s.1.search_cache := by
  intro kws
  induction kws with
  | nil => intro s; rfl
  | cons kw rest ih =>
    intro s
    obtain ⟨st, evs, files⟩ := s
    simp only [keyword_grep_loop]
    split
    · rw [ih]
      rfl
    · rw [ih]
      rfl

theorem keyword_miss_run_search_cache (oracle : Str → Str) (tStore : Nat)
    (kws : List Str) (st : SAgent) :
    (keyword_miss_run oracle tStore kws st).2.search_cache =
      sc_set st.search_cache (keyword_cache_key kws)
        (tStore, (keyword_miss_run oracle tStore kws st).1) := by
  simp only [keyword_miss_run]
  rw [read_files_batch_search_cache, keyword_grep_loop_search_cache]
  rfl

theorem ksp_miss (oracle : Str → Str) (tNow tStore : Nat) (kws : List Str)
    (st : SAgent)
    (hf : sc_find st.search_cache (keyword_cache_key kws) = none) :
    keyword_search_parallel oracle tNow tStore kws st =
      keyword_miss_run oracle tStore kws st := by
  unfold keyword_search_parallel
  rw [hf]
  rfl

theorem ksp_hit (oracle : Str → Str) (tNow tStore : Nat) (kws : List Str)
    (st : SAgent) (ts : Nat) (evs : List Event)
    (hf : sc_find st.search_cache (keyword_cache_key kws) = some (ts, evs))
    (ht : tNow - ts < search_cache_ttl) :
    keyword_search_parallel oracle tNow tStore kws st = (evs, bump_hits st) := by
  unfold keyword_search_parallel
  rw [hf]
  simp only [keyword_lookup_aux]
  rw [if_pos ht]

/-- C6: running the keyword-search strategy a second time within the TTL
window (same sorted keyword set, first run a cache miss) replays the exact
event sequence of the first run, increments the cache-hit counter by one,
leaves the cache-miss counter unchanged, and leaves the executor untouched:
neither the shell-command counter nor the list of executed commands (each of
which passes through the policy engine) changes on the second run. -/
theorem C6_search_cache_idempotent (oracle : Str → Str) (t1 t1s t2 t2s : Nat)
    (kws1 kws2 : List Str) (st0 : SAgent)
    (hsort : sort_strs kws1 = sort_strs kws2)
    (hmiss : sc_find st0.search_cache (keyword_cache_key kws1) = none)
    (httl : t2 - t1s < search_cache_ttl) :
    (keyword_search_parallel oracle t2 t2s kws2
        (keyword_search_parallel oracle t1 t1s kws1 st0).2).1 =
      (keyword_search_parallel oracle t1 t1s kws1 st0).1 ∧
    (keyword_search_parallel oracle t2 t2s kws2
        (keyword_search_parallel oracle t1 t1s kws1 st0).2).2.metrics.cache_hits =
      (keyword_search_parallel oracle t1 t1s kws1 st0).2.metrics.cache_hits + 1 ∧
    (keyword_search_parallel oracle t2 t2s kws2
        (keyword_search_parallel oracle t1 t1s kws1 st0).2).2.metrics.cache_misses =
      (keyword_search_parallel oracle t1 t1s kws1 st0).2.metrics.cache_misses ∧
    (keyword_search_parallel oracle t2 t2s kws2
        (keyword_search_parallel oracle t1 t1s kws1 st0).2).2.metrics.shell_commands =
      (keyword_search_parallel oracle t1 t1s kws1 st0).2.metrics.shell_commands ∧
    (keyword_search_parallel oracle t2 t2s kws2
        (keyword_search_parallel oracle t1 t1s kws1 st0).2).2.commands_run =
      (keyword_search_parallel oracle t1 t1s kws1 st0).2.commands_run := by
  have hkey : keyword_cache_key kws2 = keyword_cache_key kws1 := by
    unfold keyword_cache_key
    rw [hsort]
  have hE := ksp_miss oracle t1 t1s kws1 st0 hmiss
  have hsc : (keyword_search_parallel oracle t1 t1s kws1 st0).2.search_cache =
      sc_set st0.search_cache (keyword_cache_key kws1)
        (t1s, (keyword_search_parallel oracle t1 t1s kws1 st0).1) := by
    rw [hE]
    exact keyword_miss_run_search_cache oracle t1s kws1 st0
  have hfind2 : sc_find
      (keyword_search_parallel oracle t1 t1s kws1 st0).2.search_cache
      (keyword_cache_key kws2) =
      some (t1s, (keyword_search_parallel oracle t1 t1s kws1 st0).1) := by
    rw [hkey, hsc]
    exact sc_find_set _ _ _
  have hr2 := ksp_hit oracle t2 t2s kws2
    (keyword_search_parallel oracle t1 t1s kws1 st0).2 t1s
    (keyword_search_parallel oracle t1 t1s kws1 st0).1 hfind2 httl
  exact ⟨by rw [hr2], by rw [hr2]; rfl, by rw [hr2]; rfl, by rw [hr2]; rfl, by rw [hr2]; rfl⟩

/-- C6 witness: a concrete two-run session on a fresh agent with an empty
environment. -/
theorem C6_search_cache_idempotent_witness :
    (keyword_search_parallel oracle0 1 1 [("a").data]
        (keyword_search_parallel oracle0 0 0 [("a").data] init_agent).2).1 =
      (keyword_search_parallel oracle0 0 0 [("a").data] init_agent).1 ∧
    (keyword_search_parallel oracle0 1 1 [("a").data]
        (keyword_search_parallel oracle0 0 0 [("a").data] init_agent).2).2.metrics.cache_hits =
      (keyword_search_parallel oracle0 0 0 [("a").data] init_agent).2.metrics.cache_hits + 1 ∧
    (keyword_search_parallel oracle0 1 1 [("a").data]
        (keyword_search_parallel oracle0 0 0 [("a").data] init_agent).2).2.metrics.cache_misses =
      (keyword_search_parallel oracle0 0 0 [("a").data] init_agent).2.metrics.cache_misses ∧
    (keyword_search_parallel oracle0 1 1 [("a").data]
        (keyword_search_parallel oracle0 0 0 [("a").data] init_agent).2).2.metrics.shell_commands =
      (keyword_search_parallel oracle0 0 0 [("a").data] init_agent).2.metrics.shell_commands ∧
    (keyword_search_parallel oracle0 1 1 [("a").data]
        (keyword_search_parallel oracle0 0 0 [("a").data] init_agent).2).2.commands_run =
      (keyword_search_parallel oracle0 0 0 [("a").data] init_agent).2.commands_run :=
  C6_search_cache_idempotent oracle0 0 0 1 1 [("a").data] [("a").data] init_agent
    rfl rfl (by decide)

/-- C7: when the content cache is empty after all strategies, the final phase
of process_query emits the canned no-information message and does not invoke
the final synthesis completion; the canned message indeed contains the
phrase "No relevant information found in the documentation". -/
theorem C7_empty_cache_canned_answer (llmAnswer : Str) (st : SAgent)
    (h : st.context_cache = []) :
    process_query_final llmAnswer st =
      ([{ kind := EvKind.message, content := ("🔬 Preparing answer...").data },
        { kind := EvKind.message, content := canned_no_info }], false) ∧
    contains_sub (("No relevant information found in the documentation").data)
      canned_no_info = true := by
  constructor
  · simp [process_query_final, h]
  · decide

/-- C7 witness: a fresh agent has an empty content cache and receives the
canned answer with no synthesis call. -/
theorem C7_empty_cache_canned_answer_witness :
    process_query_final [] init_agent =
      ([{ kind := EvKind.message, content := ("🔬 Preparing answer...").data },
        { kind := EvKind.message, content := canned_no_info }], false) ∧
    contains_sub (("No relevant information found in the documentation").data)
      canned_no_info = true :=
  C7_empty_cache_canned_answer [] init_agent rfl

end DocBot
